import Mathlib

/-!
Verification of the shift-assignment scheduler core
(`domain/entities/{employee,workstation,schedule}.py` and
`domain/services/schedule_service.py`).

Modelling conventions for the shallow embedding:
* UUIDs are modelled as `Nat` (fresh ids are supplied explicitly where the
  source calls `uuid4()`).
* datetimes are modelled as `Int` timestamps; `datetime.now()` becomes an
  explicit `now : Int` parameter.
* Python `set`s become `List`s (the source only iterates, tests membership
  and comprehends over them, which `List.any`/`List.all`/`filter` mirror).
* Python exceptions become the inductive `PyExc`; a raising method returns
  `Except PyExc _`, and a mutating method that may raise returns the
  (unchanged-on-error) object together with the outcome.
* The third-party CP-SAT solver is external to the repository: a solver
  outcome is an `Option (Nat → Nat → Nat → Bool)` (the values of the
  decision variables `shifts[e][w][p]`), and the solver's contract — that a
  returned solution satisfies every constraint the service added to the
  model — is the predicate `SolSatisfies`, whose four clauses are
  transcribed from the four `model.Add` loops of `generate_schedule`.
-/

/-- Python exception values, tagged by classification. `persistenceError`
stands for any exception raised by the repository layer's `save`. -/
inductive PyExc where
  | valueError (msg : String)
  | importError (msg : String)
  | persistenceError (msg : String)
deriving DecidableEq, Repr

/-- `str(e)` on a Python exception: its message. -/
def excMsg : PyExc → String
  | .valueError m => m
  | .importError m => m
  | .persistenceError m => m

/-- `ShiftStatus` enum from `domain/entities/schedule.py`. -/
inductive ShiftStatus where
  | scheduled
  | in_progress
  | completed
  | cancelled
deriving DecidableEq, Repr

/-- `ShiftAssignment` frozen dataclass from `domain/entities/schedule.py`. -/
structure ShiftAssignment where
  id : Nat
  employee_id : Nat
  workstation_id : Nat
  period : Nat
  status : ShiftStatus := .scheduled
  notes : String := ""
deriving DecidableEq, Repr

/-- `Schedule` entity from `domain/entities/schedule.py` (entity base fields
`id`, `created_at`, `updated_at` included). -/
structure Schedule where
  id : Nat
  team_id : Int
  start_date : Int
  periods_per_day : Nat
  assignments : List ShiftAssignment := []
  is_published : Bool := false
  version : Nat := 1
  created_at : Int
  updated_at : Int
deriving DecidableEq, Repr

/-- `Qualification` frozen dataclass from `domain/entities/employee.py`. -/
structure Qualification where
  name : String
  level : Int
  acquired_date : Int
  expires_at : Option Int := none
deriving DecidableEq, Repr

/-- `Employee` entity from `domain/entities/employee.py` (the fields the
scheduler reads; skill/availability caches live in the repositories here). -/
structure Employee where
  id : Nat
  employee_id : String
  first_name : String
  last_name : String
  team_id : Int
  is_active : Bool := true
  qualifications : List Qualification := []
deriving DecidableEq, Repr

/-- `RequiredQualification` frozen dataclass from
`domain/entities/workstation.py`. -/
structure RequiredQualification where
  name : String
  minimum_level : Int
deriving DecidableEq, Repr

/-- `Workstation` entity from `domain/entities/workstation.py`. -/
structure Workstation where
  id : Nat
  station_id : String
  name : String
  team_id : Int
  line_type_id : Option Int := none
  is_active : Bool := true
  required_qualifications : List RequiredQualification := []
  capacity : Nat := 1
deriving DecidableEq, Repr

namespace Employee

/-- `Employee.has_qualification`: some qualification matches the name, meets
the level, and (filter clause) is unexpired: `not q.expires_at or
q.expires_at > datetime.now()`. -/
def has_qualification (emp : Employee) (qualification_name : String)
    (minimum_level : Int) (now : Int) : Bool :=
  emp.qualifications.any fun q =>
    (match q.expires_at with
     | none => true
     | some t => decide (now < t)) &&
    (q.name == qualification_name && decide (minimum_level ≤ q.level))

end Employee

namespace Workstation

/-- `Workstation.can_be_operated_by`: every required qualification's name
occurs among the candidate's qualification names. -/
def can_be_operated_by (ws : Workstation)
    (employee_qualifications : List String) : Bool :=
  ws.required_qualifications.all fun rq =>
    employee_qualifications.any fun eq => eq == rq.name

end Workstation

/-- `{q.name for q in employees[e].qualifications}` in the service. -/
def qualNames (emp : Employee) : List String :=
  emp.qualifications.map Qualification.name

namespace Schedule

/-- `Schedule.add_assignment`. Returns the (unchanged-on-error) schedule and
either the new assignment or the raised `ValueError`; `uuid4()` and
`datetime.now()` are the explicit `fresh_id`/`now` arguments. -/
def add_assignment (s : Schedule) (employee_id workstation_id : Nat)
    (period : Nat) (notes : String) (fresh_id : Nat) (now : Int) :
    Schedule × Except PyExc ShiftAssignment :=
  if period < 1 ∨ period > s.periods_per_day then
    (s, .error (.valueError
      ("Period must be between 1 and " ++ toString s.periods_per_day)))
  else
    let a : ShiftAssignment :=
      { id := fresh_id, employee_id := employee_id,
        workstation_id := workstation_id, period := period, notes := notes }
    ({ s with assignments := s.assignments ++ [a],
              version := s.version + 1, updated_at := now }, .ok a)

/-- `Schedule.remove_assignment`. -/
def remove_assignment (s : Schedule) (assignment_id : Nat) (now : Int) :
    Schedule :=
  { s with assignments := s.assignments.filter fun a => a.id ≠ assignment_id,
           version := s.version + 1, updated_at := now }

/-- `Schedule.update_assignment_status`: rebuild the whole (immutable-record)
list, rewriting the status of the record whose id matches. -/
def update_assignment_status (s : Schedule) (assignment_id : Nat)
    (status : ShiftStatus) (now : Int) : Schedule :=
  { s with
    assignments := s.assignments.map fun a =>
      { id := a.id, employee_id := a.employee_id,
        workstation_id := a.workstation_id, period := a.period,
        status := if a.id == assignment_id then status else a.status,
        notes := a.notes },
    version := s.version + 1, updated_at := now }

/-- `Schedule.publish`. -/
def publish (s : Schedule) (now : Int) : Schedule :=
  { s with is_published := true, version := s.version + 1, updated_at := now }

/-- `Schedule.unpublish`. -/
def unpublish (s : Schedule) (now : Int) : Schedule :=
  { s with is_published := false, version := s.version + 1, updated_at := now }

end Schedule

/-! ## `ScheduleService` (`domain/services/schedule_service.py`)

Repository collaborators are external: their results (`get_by_team`,
`get_available_employees`, `get_by_id`) are inputs, and `save` is the
`saveExc : Option PyExc` input (`none` = save succeeds, `some e` = save
raises `e`). -/

/-- Default used only to totalise positional indexing; every access is
in range. -/
def dEmp : Employee :=
  { id := 0, employee_id := "", first_name := "", last_name := "", team_id := 0 }

/-- Default used only to totalise positional indexing; every access is
in range. -/
def dWs : Workstation :=
  { id := 0, station_id := "", name := "", team_id := 0, line_type_id := none }

/-- `employees[e]` in the service loops. -/
def empAt (employees : List Employee) (e : Nat) : Employee :=
  employees.getD e dEmp

/-- `workstations[w]` in the service loops. -/
def wsAt (workstations : List Workstation) (w : Nat) : Workstation :=
  workstations.getD w dWs

/-- The availability filter of `generate_schedule`:
`[e for e in employees if e.id in available_employee_ids]`. -/
def availableFilter (employees : List Employee)
    (available_employees : List Employee) : List Employee :=
  employees.filter fun e => (available_employees.map Employee.id).contains e.id

/-- The solver's contract: a solution returned for the model built by
`generate_schedule` satisfies the four constraint families added to it,
with the boolean sums of the source rendered as sums of indicators.
`employees` is the already-filtered roster the model was built over. -/
def SolSatisfies (employees : List Employee) (workstations : List Workstation)
    (periods_per_day : Nat) (sol : Nat → Nat → Nat → Bool) : Prop :=
  (∀ e < employees.length, ∀ p < periods_per_day,
     (∑ w ∈ Finset.range workstations.length,
       (if sol e w p then 1 else 0)) ≤ 1) ∧
  (∀ w < workstations.length, ∀ p < periods_per_day,
     (∑ e ∈ Finset.range employees.length,
       (if sol e w p then 1 else 0)) = 1) ∧
  (∀ e < employees.length, ∀ w < workstations.length,
     (wsAt workstations w).can_be_operated_by
       (qualNames (empAt employees e)) = false →
     ∀ p < periods_per_day, sol e w p = false) ∧
  (∀ e < employees.length, ∀ w < workstations.length,
     ∀ p, p < periods_per_day - 1 → sol e w p = sol e w (p + 1))

/-- The extraction loop's visit order: for each period `p`, employee `e`,
workstation `w` with `solver.Value(shifts[e][w][p]) == 1`, the
`(employee_id, workstation_id, period)` triple passed to `add_assignment`
(period already converted to 1-based). -/
def solutionTriples (employees : List Employee)
    (workstations : List Workstation) (periods_per_day : Nat)
    (sol : Nat → Nat → Nat → Bool) : List (Nat × Nat × Nat) :=
  (List.range periods_per_day).flatMap fun p =>
    (List.range employees.length).flatMap fun e =>
      (List.range workstations.length).flatMap fun w =>
        if sol e w p then [((empAt employees e).id, (wsAt workstations w).id, p + 1)] else []

/-- Replays the extraction loop's `schedule.add_assignment(...)` calls;
`k` numbers the `uuid4()` calls so far. Stops at the first raise, which
propagates (to the service's catch-all). -/
def addAssignmentsFrom (fresh : Nat → Nat) (now : Int) :
    Nat → Schedule → List (Nat × Nat × Nat) → Schedule × Option PyExc
  | _, s, [] => (s, none)
  | k, s, (eid, wid, per) :: rest =>
    match s.add_assignment eid wid per "" (fresh k) now with
    | (s', .ok _) => addAssignmentsFrom fresh now (k + 1) s' rest
    | (s', .error exc) => (s', some exc)

/-- The body of `generate_schedule`'s `try` block (the data lookups, the
constraint model, the solve, the extraction loop and the final
`schedule_repository.save`), producing either the schedule returned from
inside the `try` or the exception raised there. -/
def generate_try (teamEmployees : List Employee)
    (teamWorkstations : List Workstation) (available : List Employee)
    (team_id : Int) (schedule_date : Int) (periods_per_day : Nat)
    (solverResult : Option (Nat → Nat → Nat → Bool)) (saveExc : Option PyExc)
    (schedule0 : Schedule) (fresh : Nat → Nat) (now : Int) :
    Except PyExc Schedule :=
  if teamEmployees.isEmpty || teamWorkstations.isEmpty then
    .error (.valueError
      ("No employees or workstations found for team " ++ toString team_id))
  else if (availableFilter teamEmployees available).isEmpty then
    .error (.valueError
      ("No available employees found for date " ++ toString schedule_date))
  else
    match solverResult with
    | some sol =>
      match (addAssignmentsFrom fresh now 0 schedule0
          (solutionTriples (availableFilter teamEmployees available)
            teamWorkstations periods_per_day sol)).2 with
      | some exc => .error exc
      | none =>
        match saveExc with
        | some exc => .error exc
        | none =>
          .ok (addAssignmentsFrom fresh now 0 schedule0
            (solutionTriples (availableFilter teamEmployees available)
              teamWorkstations periods_per_day sol)).1
    | none =>
      .error (.valueError
        "No feasible schedule found. Check staff availability and training.")

/-- `ScheduleService.generate_schedule`. Inputs stand for the collaborator
results: `teamEmployees`/`teamWorkstations` from `get_by_team`, `available`
from `get_available_employees`, `solverResult` from `solver.Solve` (`some`
iff the status was OPTIMAL or FEASIBLE, carrying the variable values), and
`saveExc` for `schedule_repository.save`. `sched_id`/`fresh`/`now` supply
the `uuid4()`/`datetime.now()` values. The trailing `match` is the
`except Exception as e: raise ValueError(f"Failed to generate schedule: ...")`
catch-all wrapping everything raised inside the `try`. -/
def generate_schedule (has_ortools : Bool) (teamEmployees : List Employee)
    (teamWorkstations : List Workstation) (available : List Employee)
    (team_id : Int) (schedule_date : Int) (periods_per_day : Nat)
    (solverResult : Option (Nat → Nat → Nat → Bool)) (saveExc : Option PyExc)
    (sched_id : Nat) (fresh : Nat → Nat) (now : Int) : Except PyExc Schedule :=
  if !has_ortools then
    .error (.importError "Please install ortools package: pip install ortools")
  else
    let schedule0 : Schedule :=
      { id := sched_id, team_id := team_id, start_date := schedule_date,
        periods_per_day := periods_per_day, created_at := now,
        updated_at := now }
    match generate_try teamEmployees teamWorkstations available team_id
      schedule_date periods_per_day solverResult saveExc schedule0 fresh now with
    | .ok s => .ok s
    | .error e =>
      .error (.valueError ("Failed to generate schedule: " ++ excMsg e))

/-- `ScheduleService.publish_schedule`: looks the schedule up, sets the
`is_published` attribute directly (it does not call `Schedule.publish`),
then saves. Returns the schedule passed to `save`. -/
def service_publish_schedule (found : Option Schedule) :
    Except PyExc Schedule :=
  match found with
  | none => .error (.valueError "Schedule not found")
  | some schedule => .ok { schedule with is_published := true }

/-- `ScheduleService.update_assignment_status`: looks the schedule up,
delegates to `Schedule.update_assignment_status`, then saves. Returns the
schedule passed to `save`. -/
def service_update_assignment_status (found : Option Schedule)
    (assignment_id : Nat) (status : ShiftStatus) (now : Int) :
    Except PyExc Schedule :=
  match found with
  | none => .error (.valueError "Schedule not found")
  | some schedule =>
    .ok (schedule.update_assignment_status assignment_id status now)

/-! ## Concrete scenario (shared by witnesses and counterexamples) -/

def exQual : Qualification :=
  { name := "welding", level := 2, acquired_date := 0 }

def exEmployee : Employee :=
  { id := 10, employee_id := "E1", first_name := "Ada", last_name := "Lee",
    team_id := 1, qualifications := [exQual] }

def exWorkstation : Workstation :=
  { id := 20, station_id := "S1", name := "Station 1", team_id := 1,
    required_qualifications := [{ name := "welding", minimum_level := 1 }] }

def exSol : Nat → Nat → Nat → Bool := fun e w _ => e == 0 && w == 0

def exFresh : Nat → Nat := fun k => 100 + k

def exGenerate : Except PyExc Schedule :=
  generate_schedule true [exEmployee] [exWorkstation] [exEmployee]
    1 0 2 (some exSol) none 5 exFresh 7

def exSchedule : Schedule :=
  { id := 5, team_id := 1, start_date := 0, periods_per_day := 2,
    assignments :=
      [{ id := 100, employee_id := 10, workstation_id := 20, period := 1 },
       { id := 101, employee_id := 10, workstation_id := 20, period := 2 }],
    is_published := false, version := 3, created_at := 7, updated_at := 7 }

instance (employees : List Employee) (workstations : List Workstation)
    (periods_per_day : Nat) (sol : Nat → Nat → Nat → Bool) :
    Decidable (SolSatisfies employees workstations periods_per_day sol) := by
  unfold SolSatisfies; infer_instance

/-- `service_publish_schedule` output on `exSchedule`: flag set, version
untouched. -/
def exPublished : Schedule := { exSchedule with is_published := true }

/-- The scenario run again with a failing `schedule_repository.save`. -/
def exGenerateSaveFail : Except PyExc Schedule :=
  generate_schedule true [exEmployee] [exWorkstation] [exEmployee]
    1 0 2 (some exSol) (some (.persistenceError "db down")) 5 exFresh 7

/-- The `ShiftAssignment` records the extraction loop appends for a run of
triples, `fresh k` numbering the `uuid4()` calls from `k` on. -/
def buildListFrom (fresh : Nat → Nat) :
    Nat → List (Nat × Nat × Nat) → List ShiftAssignment
  | _, [] => []
  | k, (eid, wid, per) :: rest =>
    { id := fresh k, employee_id := eid, workstation_id := wid,
      period := per } :: buildListFrom fresh (k + 1) rest

/-! ## Entity-level theorems -/

/-- C9: `Employee.has_qualification` holds iff some qualification matches the
name, meets the minimum level, and is unexpired (no expiry, or `now`
strictly before it); an expiry at or before `now` never counts. -/
theorem has_qualification_iff (emp : Employee) (qn : String) (ml : Int)
    (now : Int) :
    emp.has_qualification qn ml now = true ↔
      ∃ q ∈ emp.qualifications, q.name = qn ∧ ml ≤ q.level ∧
        (q.expires_at = none ∨ ∃ t, q.expires_at = some t ∧ now < t) := by
  unfold Employee.has_qualification
  rw [List.any_eq_true]
  constructor
  · rintro ⟨q, hq, hcond⟩
    refine ⟨q, hq, ?_⟩
    rcases hexp : q.expires_at with _ | t
    · rw [hexp] at hcond
      simp only [Bool.and_eq_true, beq_iff_eq, decide_eq_true_eq] at hcond
      exact ⟨hcond.2.1, hcond.2.2, Or.inl rfl⟩
    · rw [hexp] at hcond
      simp only [Bool.and_eq_true, beq_iff_eq, decide_eq_true_eq] at hcond
      exact ⟨hcond.2.1, hcond.2.2, Or.inr ⟨t, rfl, hcond.1⟩⟩
  · rintro ⟨q, hq, hname, hlvl, hexp⟩
    refine ⟨q, hq, ?_⟩
    rcases hexp with h | ⟨t, ht, hlt⟩
    · rw [h]; simp [hname, hlvl]
    · rw [ht]; simp [hname, hlvl, hlt]

/-- C6: `Schedule.add_assignment` raises the range `ValueError` iff the
period lies outside `[1, periods_per_day]`; on that error the schedule is
returned unchanged, and on success exactly one new `scheduled` record is
appended, `version` grows by exactly 1 and `updated_at` is refreshed. -/
theorem add_assignment_range_spec (s : Schedule) (eid wid per : Nat)
    (notes : String) (fid : Nat) (now : Int) :
    ((∃ m, (s.add_assignment eid wid per notes fid now).2 =
        .error (.valueError m)) ↔ (per < 1 ∨ per > s.periods_per_day)) ∧
    (per < 1 ∨ per > s.periods_per_day →
      (s.add_assignment eid wid per notes fid now).1 = s) ∧
    (1 ≤ per → per ≤ s.periods_per_day →
      ∃ a : ShiftAssignment, a.status = .scheduled ∧ a.period = per ∧
        a.employee_id = eid ∧ a.workstation_id = wid ∧
        s.add_assignment eid wid per notes fid now =
          ({ s with assignments := s.assignments ++ [a],
                    version := s.version + 1, updated_at := now }, .ok a)) := by
  unfold Schedule.add_assignment
  by_cases h : per < 1 ∨ per > s.periods_per_day
  · rw [if_pos h]
    refine ⟨⟨fun _ => h, fun _ => ⟨_, rfl⟩⟩, fun _ => rfl, fun h1 h2 => ?_⟩
    rcases h with h | h <;> omega
  · rw [if_neg h]
    refine ⟨⟨?_, fun hh => absurd hh h⟩, fun hh => absurd hh h, fun _ _ => ?_⟩
    · rintro ⟨m, hm⟩
      exact absurd hm (by simp)
    · exact ⟨_, rfl, rfl, rfl, rfl, rfl⟩

/-- C6 witness: the success branch at a concrete schedule and period. -/
theorem add_assignment_range_spec_witness :
    ∃ a : ShiftAssignment, a.status = .scheduled ∧ a.period = 1 ∧
      a.employee_id = 11 ∧ a.workstation_id = 21 ∧
      exSchedule.add_assignment 11 21 1 "note" 102 8 =
        ({ exSchedule with assignments := exSchedule.assignments ++ [a],
                           version := exSchedule.version + 1,
                           updated_at := 8 }, .ok a) :=
  (add_assignment_range_spec exSchedule 11 21 1 "note" 102 8).2.2
    (by decide) (by decide)

/-- C8: updating the status of an assignment id absent from the schedule
leaves the assignment list unchanged while still incrementing `version`. -/
theorem update_assignment_status_missing_id (s : Schedule) (aid : Nat)
    (st : ShiftStatus) (now : Int)
    (h : ∀ a ∈ s.assignments, a.id ≠ aid) :
    (s.update_assignment_status aid st now).assignments = s.assignments ∧
    (s.update_assignment_status aid st now).version = s.version + 1 := by
  refine ⟨?_, rfl⟩
  unfold Schedule.update_assignment_status
  have hcongr : ∀ a ∈ s.assignments,
      ({ id := a.id, employee_id := a.employee_id,
         workstation_id := a.workstation_id, period := a.period,
         status := if a.id == aid then st else a.status,
         notes := a.notes } : ShiftAssignment) = a := by
    intro a ha
    have : (a.id == aid) = false := beq_eq_false_iff_ne.mpr (h a ha)
    rw [this]
    rfl
  calc s.assignments.map _ = s.assignments.map id :=
        List.map_congr_left hcongr
    _ = s.assignments := List.map_id s.assignments

/-- C8 witness: status update with an id not in `exSchedule`. -/
theorem update_assignment_status_missing_id_witness :
    (exSchedule.update_assignment_status 999 .completed 9).assignments =
      exSchedule.assignments ∧
    (exSchedule.update_assignment_status 999 .completed 9).version =
      exSchedule.version + 1 :=
  update_assignment_status_missing_id exSchedule 999 .completed 9 (by decide)

/-- C10: when the id is present, `update_assignment_status` rewrites only
the `status` of the matching record(s); every position holds the same
record otherwise, and the list's length and order are preserved. -/
theorem update_assignment_status_frame (s : Schedule) (aid : Nat)
    (st : ShiftStatus) (now : Int)
    (hpresent : ∃ a ∈ s.assignments, a.id = aid) (i : Nat) :
    (s.update_assignment_status aid st now).assignments.length =
      s.assignments.length ∧
    (s.update_assignment_status aid st now).assignments[i]? =
      s.assignments[i]?.map fun a =>
        { a with status := if a.id = aid then st else a.status } := by
  unfold Schedule.update_assignment_status
  refine ⟨by simp, ?_⟩
  simp only [List.getElem?_map]
  cases hi : s.assignments[i]? with
  | none => rfl
  | some a =>
    by_cases hid : a.id = aid
    · simp [hid]
    · simp [hid]

/-- C10 witness: rewriting the status of the first assignment of
`exSchedule` in place. -/
theorem update_assignment_status_frame_witness :
    (exSchedule.update_assignment_status 100 .completed 9).assignments.length =
      exSchedule.assignments.length ∧
    (exSchedule.update_assignment_status 100 .completed 9).assignments[0]? =
      exSchedule.assignments[0]?.map fun a =>
        { a with status := if a.id = 100 then .completed else a.status } :=
  update_assignment_status_frame exSchedule 100 .completed 9 (by decide) 0

/-- C5 (amended): every structural mutation through the `Schedule` entity's
own methods — a successful `add_assignment`, `remove_assignment`, `publish`,
`unpublish`, `update_assignment_status` — strictly increases `version`;
the service's `publish_schedule` entry point, however, sets `is_published`
directly on the loaded schedule and leaves `version` unchanged. -/
theorem schedule_mutations_version (s : Schedule) (eid wid per fid aid : Nat)
    (notes : String) (st : ShiftStatus) (now : Int) :
    (∀ s' a, s.add_assignment eid wid per notes fid now = (s', .ok a) →
      s.version < s'.version) ∧
    s.version < (s.remove_assignment aid now).version ∧
    s.version < (s.publish now).version ∧
    s.version < (s.unpublish now).version ∧
    s.version < (s.update_assignment_status aid st now).version ∧
    (∀ s', service_publish_schedule (some s) = .ok s' →
      s'.version = s.version ∧ s'.is_published = true) := by
  refine ⟨?_, Nat.lt_succ_self _, Nat.lt_succ_self _, Nat.lt_succ_self _,
    Nat.lt_succ_self _, ?_⟩
  · intro s' a h
    unfold Schedule.add_assignment at h
    split at h
    · exact absurd (congrArg Prod.snd h) (by simp)
    · have := congrArg Prod.fst h
      simp only at this
      rw [← this]
      exact Nat.lt_succ_self _
  · intro s' h
    unfold service_publish_schedule at h
    rw [Except.ok.injEq] at h
    rw [← h]
    exact ⟨rfl, rfl⟩

/-- C5 witness: the entity-method clauses at a concrete schedule. -/
theorem schedule_mutations_version_witness :
    exSchedule.version <
      ((exSchedule.add_assignment 11 21 1 "note" 102 8).1).version :=
  (schedule_mutations_version exSchedule 11 21 1 102 0 "note" .scheduled 8).1
    (exSchedule.add_assignment 11 21 1 "note" 102 8).1
    { id := 102, employee_id := 11, workstation_id := 21, period := 1,
      notes := "note" }
    rfl

/-- C5 counterexample: publishing through the service entry point does not
increase the version counter, refuting the claim's
"including via the service's publish_schedule entry point" part. -/
theorem service_publish_no_version_bump :
    service_publish_schedule (some exSchedule) = .ok exPublished ∧
    ¬ exSchedule.version < exPublished.version := by
  exact ⟨rfl, by decide⟩

/-- C7 (amended): with the solver library present, every failure raised
inside `generate_schedule`'s `try` block — data lookup, formulation, solve,
and also the persistence layer's `save` — surfaces as the single coarse
`ValueError` carrying the underlying cause's message; only the
solver-library-missing check, which sits before the `try`, propagates with
its own classification. -/
theorem generation_failures_wrapped (teamEmployees : List Employee)
    (teamWorkstations : List Workstation) (available : List Employee)
    (team_id schedule_date : Int) (periods_per_day : Nat)
    (solverResult : Option (Nat → Nat → Nat → Bool)) (saveExc : Option PyExc)
    (sched_id : Nat) (fresh : Nat → Nat) (now : Int) (e : PyExc) :
    (generate_schedule true teamEmployees teamWorkstations available team_id
        schedule_date periods_per_day solverResult saveExc sched_id fresh now =
        .error e →
      ∃ cause, e = .valueError ("Failed to generate schedule: " ++ cause)) ∧
    (generate_schedule false teamEmployees teamWorkstations available team_id
        schedule_date periods_per_day solverResult saveExc sched_id fresh now =
        .error e →
      e = .importError "Please install ortools package: pip install ortools") := by
  constructor
  · intro h
    unfold generate_schedule at h
    simp only [Bool.not_true, Bool.false_eq_true, if_false] at h
    split at h
    · exact absurd h (by simp)
    · rw [Except.error.injEq] at h
      exact ⟨_, h.symm⟩
  · intro h
    unfold generate_schedule at h
    simp only [Bool.not_false, if_true] at h
    rw [Except.error.injEq] at h
    exact h.symm

/-- C7 witness: the save-failure run, wrapped as the coarse failure. -/
theorem generation_failures_wrapped_witness :
    ∃ cause, (PyExc.valueError "Failed to generate schedule: db down") =
      .valueError ("Failed to generate schedule: " ++ cause) :=
  (generation_failures_wrapped [exEmployee] [exWorkstation] [exEmployee]
      1 0 2 (some exSol) (some (.persistenceError "db down")) 5 exFresh 7
      (.valueError "Failed to generate schedule: db down")).1 rfl

/-- C7 counterexample: a save failure is re-raised as the coarse generation
`ValueError`, not with its original persistence classification — refuting
"persistence-layer exceptions are not wrapped". -/
theorem persistence_error_is_wrapped :
    exGenerateSaveFail =
      .error (.valueError "Failed to generate schedule: db down") ∧
    exGenerateSaveFail ≠ .error (.persistenceError "db down") := by
  refine ⟨rfl, fun h => ?_⟩
  have h1 : (Except.error (PyExc.valueError "Failed to generate schedule: db down") :
      Except PyExc Schedule) = .error (.persistenceError "db down") :=
    (rfl : exGenerateSaveFail = _).symm.trans h
  rw [Except.error.injEq] at h1
  exact PyExc.noConfusion h1

/-! ## Machinery for the generation-path claims -/

/-- Counting over a flat-mapped index range is the sum of the per-index
counts. -/
theorem countP_flatMap_range {α : Type} (n : Nat) (f : Nat → List α)
    (q : α → Bool) :
    ((List.range n).flatMap f).countP q =
      ∑ i ∈ Finset.range n, (f i).countP q := by
  induction n with
  | zero => simp
  | succ n ih =>
    rw [List.range_succ, List.flatMap_append, List.countP_append, ih,
      Finset.sum_range_succ]
    simp [List.flatMap]

/-- Counting in a conditional singleton. -/
theorem countP_ite_singleton {α : Type} (b : Bool) (x : α) (q : α → Bool) :
    (if b then [x] else []).countP q = if b && q x then 1 else 0 := by
  cases b <;> simp [List.countP_cons]

/-- The count of extraction triples matching a predicate, as a triple sum
over the variable space. -/
theorem countP_solutionTriples (employees : List Employee)
    (workstations : List Workstation) (periods_per_day : Nat)
    (sol : Nat → Nat → Nat → Bool) (qe : Nat → Nat → Nat → Bool) :
    (solutionTriples employees workstations periods_per_day sol).countP
        (fun t => qe t.1 t.2.1 t.2.2) =
      ∑ p ∈ Finset.range periods_per_day,
        ∑ e ∈ Finset.range employees.length,
          ∑ w ∈ Finset.range workstations.length,
            (if sol e w p &&
                qe (empAt employees e).id (wsAt workstations w).id (p + 1)
             then 1 else 0) := by
  unfold solutionTriples
  rw [countP_flatMap_range]
  refine Finset.sum_congr rfl fun p _ => ?_
  rw [countP_flatMap_range]
  refine Finset.sum_congr rfl fun e _ => ?_
  rw [countP_flatMap_range]
  refine Finset.sum_congr rfl fun w _ => ?_
  exact countP_ite_singleton ..

/-- Every extraction triple's period is 1-based and within the day. -/
theorem solutionTriples_period_bounds (employees : List Employee)
    (workstations : List Workstation) (periods_per_day : Nat)
    (sol : Nat → Nat → Nat → Bool) :
    ∀ t ∈ solutionTriples employees workstations periods_per_day sol,
      1 ≤ t.2.2 ∧ t.2.2 ≤ periods_per_day := by
  intro t ht
  unfold solutionTriples at ht
  simp only [List.mem_flatMap, List.mem_range] at ht
  obtain ⟨p, hp, e, _, w, _, hmem⟩ := ht
  split at hmem
  · rcases List.mem_singleton.mp hmem with rfl
    exact ⟨Nat.le_add_left .., Nat.succ_le_of_lt hp⟩
  · cases hmem

/-- Decomposition of an extraction triple into its variable indices. -/
theorem mem_solutionTriples (employees : List Employee)
    (workstations : List Workstation) (periods_per_day : Nat)
    (sol : Nat → Nat → Nat → Bool) (t : Nat × Nat × Nat)
    (ht : t ∈ solutionTriples employees workstations periods_per_day sol) :
    ∃ e w p, e < employees.length ∧ w < workstations.length ∧
      p < periods_per_day ∧ sol e w p = true ∧
      t = ((empAt employees e).id, (wsAt workstations w).id, p + 1) := by
  unfold solutionTriples at ht
  simp only [List.mem_flatMap, List.mem_range] at ht
  obtain ⟨p, hp, e, he, w, hw, hmem⟩ := ht
  split at hmem
  · rcases List.mem_singleton.mp hmem with rfl
    exact ⟨e, w, p, he, hw, hp, by assumption, rfl⟩
  · cases hmem

/-- A successful replay of the extraction loop appends exactly the built
records and touches nothing else about the assignment list. -/
theorem addAssignmentsFrom_ok (fresh : Nat → Nat) (now : Int) :
    ∀ (l : List (Nat × Nat × Nat)) (k : Nat) (s : Schedule),
      (∀ t ∈ l, 1 ≤ t.2.2 ∧ t.2.2 ≤ s.periods_per_day) →
      (addAssignmentsFrom fresh now k s l).2 = none ∧
      (addAssignmentsFrom fresh now k s l).1.assignments =
        s.assignments ++ buildListFrom fresh k l ∧
      (addAssignmentsFrom fresh now k s l).1.periods_per_day =
        s.periods_per_day := by
  intro l
  induction l with
  | nil => intro k s _; exact ⟨rfl, by simp [addAssignmentsFrom, buildListFrom], rfl⟩
  | cons t rest ih =>
    intro k s hbound
    obtain ⟨eid, wid, per⟩ := t
    have hper : 1 ≤ per ∧ per ≤ s.periods_per_day :=
      hbound (eid, wid, per) (List.mem_cons_self _ _)
    have hcond : ¬(per < 1 ∨ per > s.periods_per_day) := by omega
    have hunf : addAssignmentsFrom fresh now k s ((eid, wid, per) :: rest) =
        addAssignmentsFrom fresh now (k + 1)
          { s with
            assignments := s.assignments ++
              [{ id := fresh k, employee_id := eid, workstation_id := wid,
                 period := per }],
            version := s.version + 1, updated_at := now } rest := by
      simp only [addAssignmentsFrom]
      unfold Schedule.add_assignment
      rw [if_neg hcond]
    rw [hunf]
    have hrest := ih (k + 1)
      { s with
        assignments := s.assignments ++
          [{ id := fresh k, employee_id := eid, workstation_id := wid,
             period := per }],
        version := s.version + 1, updated_at := now }
      (fun t ht => hbound t (List.mem_cons_of_mem _ ht))
    refine ⟨hrest.1, ?_, hrest.2.2⟩
    rw [hrest.2.1]
    simp [buildListFrom, List.append_assoc]

/-- Inversion: a schedule returned successfully by `generate_schedule`
carries exactly the records extracted from the solver solution over the
availability-filtered roster, and keeps the requested `periods_per_day`. -/
theorem generate_schedule_ok_inv (teamEmployees : List Employee)
    (teamWorkstations : List Workstation) (available : List Employee)
    (team_id schedule_date : Int) (periods_per_day : Nat)
    (sol : Nat → Nat → Nat → Bool) (saveExc : Option PyExc)
    (sched_id : Nat) (fresh : Nat → Nat) (now : Int) (s : Schedule)
    (h : generate_schedule true teamEmployees teamWorkstations available
      team_id schedule_date periods_per_day (some sol) saveExc sched_id fresh
      now = .ok s) :
    s.assignments = buildListFrom fresh 0
      (solutionTriples (availableFilter teamEmployees available)
        teamWorkstations periods_per_day sol) ∧
    s.periods_per_day = periods_per_day := by
  unfold generate_schedule at h
  simp only [Bool.not_true, Bool.false_eq_true, if_false] at h
  split at h
  case _ s' heq =>
    rw [Except.ok.injEq] at h
    subst h
    unfold generate_try at heq
    split at heq
    · injection heq
    · split at heq
      · injection heq
      · split at heq
        case _ sol' heqs =>
          injection heqs with heqs
          subst heqs
          have hadd := addAssignmentsFrom_ok fresh now
            (solutionTriples (availableFilter teamEmployees available)
              teamWorkstations periods_per_day sol) 0
            { id := sched_id, team_id := team_id, start_date := schedule_date,
              periods_per_day := periods_per_day, created_at := now,
              updated_at := now }
            (fun t ht => solutionTriples_period_bounds _ _ _ _ t ht)
          rw [hadd.1] at heq
          cases saveExc with
          | some exc => injection heq
          | none =>
            injection heq with heq
            rw [← heq]
            exact ⟨hadd.2.1, hadd.2.2⟩
        case _ heqs => exact Option.noConfusion heqs
  case _ e heq => injection h

/-- Counting built records by a predicate on the fields coming from the
triples (fresh ids, status and notes play no role). -/
theorem countP_buildListFrom (fresh : Nat → Nat) (q : ShiftAssignment → Bool)
    (qt : Nat × Nat × Nat → Bool)
    (hq : ∀ fid eid wid per,
      q { id := fid, employee_id := eid, workstation_id := wid,
          period := per } = qt (eid, wid, per)) :
    ∀ (l : List (Nat × Nat × Nat)) (k : Nat),
      (buildListFrom fresh k l).countP q = l.countP qt := by
  intro l
  induction l with
  | nil => intro k; rfl
  | cons t rest ih =>
    intro k
    obtain ⟨eid, wid, per⟩ := t
    rw [show buildListFrom fresh k ((eid, wid, per) :: rest) =
      { id := fresh k, employee_id := eid, workstation_id := wid,
        period := per } :: buildListFrom fresh (k + 1) rest from rfl]
    rw [List.countP_cons, List.countP_cons, ih (k + 1), hq]

/-- Every built record carries the fields of some triple and the
`scheduled` status. -/
theorem mem_buildListFrom (fresh : Nat → Nat) :
    ∀ (l : List (Nat × Nat × Nat)) (k : Nat) (a : ShiftAssignment),
      a ∈ buildListFrom fresh k l →
      ∃ t ∈ l, a.employee_id = t.1 ∧ a.workstation_id = t.2.1 ∧
        a.period = t.2.2 ∧ a.status = .scheduled := by
  intro l
  induction l with
  | nil => intro k a ha; cases ha
  | cons t rest ih =>
    intro k a ha
    obtain ⟨eid, wid, per⟩ := t
    rw [show buildListFrom fresh k ((eid, wid, per) :: rest) =
      { id := fresh k, employee_id := eid, workstation_id := wid,
        period := per } :: buildListFrom fresh (k + 1) rest from rfl] at ha
    rcases List.mem_cons.mp ha with rfl | ha
    · exact ⟨(eid, wid, per), List.mem_cons_self _ _, rfl, rfl, rfl, rfl⟩
    · obtain ⟨t, ht, hfields⟩ := ih (k + 1) a ha
      exact ⟨t, List.mem_cons_of_mem _ ht, hfields⟩

/-- Continuity: a satisfying solution is constant in the period index. -/
theorem sol_const_of_satisfies {employees : List Employee}
    {workstations : List Workstation} {periods_per_day : Nat}
    {sol : Nat → Nat → Nat → Bool}
    (hsat : SolSatisfies employees workstations periods_per_day sol)
    {e w : Nat} (he : e < employees.length) (hw : w < workstations.length) :
    ∀ p q, p < periods_per_day → q < periods_per_day →
      sol e w p = sol e w q := by
  have hstep := hsat.2.2.2 e he w hw
  have hzero : ∀ p, p < periods_per_day → sol e w p = sol e w 0 := by
    intro p
    induction p with
    | zero => intro _; rfl
    | succ p ih =>
      intro hp
      rw [← hstep p (by omega)]
      exact ih (by omega)
  intro p q hp hq
  rw [hzero p hp, hzero q hq]

/-- A satisfying solution never puts one employee on two workstations, even
across different periods. -/
theorem sol_unique_station {employees : List Employee}
    {workstations : List Workstation} {periods_per_day : Nat}
    {sol : Nat → Nat → Nat → Bool}
    (hsat : SolSatisfies employees workstations periods_per_day sol)
    {e w w' p p' : Nat} (he : e < employees.length)
    (hw : w < workstations.length) (hw' : w' < workstations.length)
    (hp : p < periods_per_day) (hp' : p' < periods_per_day)
    (ht : sol e w p = true) (ht' : sol e w' p' = true) : w = w' := by
  by_contra hne
  have ht'' : sol e w' p = true := by
    rw [sol_const_of_satisfies hsat he hw' p p' hp hp']
    exact ht'
  have hsum := hsat.1 e he p hp
  have hsub : ({w, w'} : Finset Nat) ⊆ Finset.range workstations.length := by
    intro x hx
    rcases Finset.mem_insert.mp hx with rfl | hx
    · exact Finset.mem_range.mpr hw
    · rw [Finset.mem_singleton.mp hx]
      exact Finset.mem_range.mpr hw'
  have hpair : (∑ x ∈ ({w, w'} : Finset Nat),
      (if sol e x p then 1 else 0)) = 2 := by
    rw [Finset.sum_pair hne, ht, ht'']
    simp
  have hle : (∑ x ∈ ({w, w'} : Finset Nat), (if sol e x p then 1 else 0)) ≤
      ∑ x ∈ Finset.range workstations.length, (if sol e x p then 1 else 0) :=
    Finset.sum_le_sum_of_subset hsub
  omega

/-- Positions with equal images under an id projection coincide when the
projected list has no duplicates. -/
theorem index_eq_of_nodup_proj {α : Type} (l : List α) (f : α → Nat) (d : α)
    (hnd : (l.map f).Nodup) {i j : Nat} (hi : i < l.length)
    (hj : j < l.length) (h : f (l.getD i d) = f (l.getD j d)) : i = j := by
  rw [List.getD_eq_getElem l d hi, List.getD_eq_getElem l d hj] at h
  have hmi : i < (l.map f).length := by simpa using hi
  have hmj : j < (l.map f).length := by simpa using hj
  have hfin := (@List.Nodup.get_inj_iff _ (l.map f) hnd ⟨i, hmi⟩ ⟨j, hmj⟩).mp
    (by rw [List.get_eq_getElem, List.get_eq_getElem]; simpa using h)
  exact congrArg Fin.val hfin

/-- The availability filter preserves distinctness of employee ids. -/
theorem nodup_ids_availableFilter (employees available : List Employee)
    (h : (employees.map Employee.id).Nodup) :
    ((availableFilter employees available).map Employee.id).Nodup :=
  ((List.filter_sublist employees).map Employee.id).nodup h

/-- A bounded sum of naturals is at most one when each summand is and at
most one index contributes. -/
theorem sum_range_le_one (n : Nat) (f : Nat → Nat)
    (hle : ∀ x, x < n → f x ≤ 1)
    (huniq : ∀ x y, x < n → y < n → 0 < f x → 0 < f y → x = y) :
    (∑ x ∈ Finset.range n, f x) ≤ 1 := by
  induction n with
  | zero => simp
  | succ n ih =>
    rw [Finset.sum_range_succ]
    by_cases h0 : f n = 0
    · rw [h0, Nat.add_zero]
      exact ih (fun x hx => hle x (by omega))
        (fun x y hx hy => huniq x y (by omega) (by omega))
    · have hzero : ∀ x ∈ Finset.range n, f x = 0 := by
        intro x hx
        have hxn : x < n := Finset.mem_range.mp hx
        by_contra hfx
        have := huniq x n (by omega) (by omega)
          (Nat.pos_of_ne_zero hfx) (Nat.pos_of_ne_zero h0)
        omega
      rw [Finset.sum_eq_zero hzero, Nat.zero_add]
      exact hle n (by omega)

/-- C1: in a successfully generated schedule, each workstation of the team
is covered by exactly one assignment in every period of the day. -/
theorem generated_schedule_coverage (teamEmployees : List Employee)
    (teamWorkstations : List Workstation) (available : List Employee)
    (team_id schedule_date : Int) (periods_per_day : Nat)
    (sol : Nat → Nat → Nat → Bool) (saveExc : Option PyExc)
    (sched_id : Nat) (fresh : Nat → Nat) (now : Int) (s : Schedule)
    (hok : generate_schedule true teamEmployees teamWorkstations available
      team_id schedule_date periods_per_day (some sol) saveExc sched_id fresh
      now = .ok s)
    (hsat : SolSatisfies (availableFilter teamEmployees available)
      teamWorkstations periods_per_day sol)
    (hnd : (teamWorkstations.map Workstation.id).Nodup)
    (ws : Workstation) (hws : ws ∈ teamWorkstations)
    (P : Nat) (hP1 : 1 ≤ P) (hP2 : P ≤ periods_per_day) :
    (s.assignments.countP fun a =>
      a.workstation_id == ws.id && a.period == P) = 1 := by
  obtain ⟨hassign, -⟩ := generate_schedule_ok_inv teamEmployees
    teamWorkstations available team_id schedule_date periods_per_day sol
    saveExc sched_id fresh now s hok
  rw [hassign]
  rw [countP_buildListFrom fresh
    (fun a => a.workstation_id == ws.id && a.period == P)
    (fun t => t.2.1 == ws.id && t.2.2 == P) (fun _ _ _ _ => rfl)
    (solutionTriples (availableFilter teamEmployees available)
      teamWorkstations periods_per_day sol) 0]
  have hsum := countP_solutionTriples (availableFilter teamEmployees available)
    teamWorkstations periods_per_day sol
    (fun _ wid per => wid == ws.id && per == P)
  rw [hsum]
  rw [Finset.sum_eq_single_of_mem (P - 1) (Finset.mem_range.mpr (by omega))
    ?notP]
  case notP =>
    intro p hp hne
    refine Finset.sum_eq_zero fun e _ => Finset.sum_eq_zero fun w _ => ?_
    have hbeq : (p + 1 == P) = false := beq_eq_false_iff_ne.mpr (by omega)
    simp [hbeq]
  obtain ⟨w0, hw0lt, hw0⟩ := List.mem_iff_getElem.mp hws
  have hwsAt : wsAt teamWorkstations w0 = ws := by
    rw [wsAt, List.getD_eq_getElem teamWorkstations dWs hw0lt]
    exact hw0
  have hbeqP : (P - 1 + 1 == P) = true := beq_iff_eq.mpr (by omega)
  simp only [hbeqP, Bool.and_true]
  rw [Finset.sum_comm]
  rw [Finset.sum_eq_single_of_mem w0 (Finset.mem_range.mpr hw0lt) ?notW]
  case notW =>
    intro w hw hne
    refine Finset.sum_eq_zero fun e _ => ?_
    have hbeq : ((wsAt teamWorkstations w).id == ws.id) = false := by
      rw [beq_eq_false_iff_ne]
      intro heq
      exact hne (index_eq_of_nodup_proj teamWorkstations Workstation.id dWs
        hnd (Finset.mem_range.mp hw) hw0lt
        (heq.trans (congrArg Workstation.id hwsAt).symm))
    simp [hbeq]
  have hbeqW : ((wsAt teamWorkstations w0).id == ws.id) = true :=
    beq_iff_eq.mpr (congrArg Workstation.id hwsAt)
  simp only [hbeqW, Bool.and_true]
  exact hsat.2.1 w0 hw0lt (P - 1) (by omega)

/-- C1 witness: the concrete generated schedule covers (station 20,
period 1) exactly once. -/
theorem generated_schedule_coverage_witness :
    (exSchedule.assignments.countP fun a =>
      a.workstation_id == exWorkstation.id && a.period == 1) = 1 :=
  generated_schedule_coverage [exEmployee] [exWorkstation] [exEmployee]
    1 0 2 exSol none 5 exFresh 7 exSchedule rfl (by decide) (by decide)
    exWorkstation (by decide) 1 (by decide) (by decide)

/-- C3: in a successfully generated schedule, no employee id appears in two
assignments with the same period number. -/
theorem generated_schedule_no_double_booking (teamEmployees : List Employee)
    (teamWorkstations : List Workstation) (available : List Employee)
    (team_id schedule_date : Int) (periods_per_day : Nat)
    (sol : Nat → Nat → Nat → Bool) (saveExc : Option PyExc)
    (sched_id : Nat) (fresh : Nat → Nat) (now : Int) (s : Schedule)
    (hok : generate_schedule true teamEmployees teamWorkstations available
      team_id schedule_date periods_per_day (some sol) saveExc sched_id fresh
      now = .ok s)
    (hsat : SolSatisfies (availableFilter teamEmployees available)
      teamWorkstations periods_per_day sol)
    (hndE : (teamEmployees.map Employee.id).Nodup)
    (E P : Nat) :
    (s.assignments.countP fun a => a.employee_id == E && a.period == P) ≤ 1 := by
  obtain ⟨hassign, -⟩ := generate_schedule_ok_inv teamEmployees
    teamWorkstations available team_id schedule_date periods_per_day sol
    saveExc sched_id fresh now s hok
  rw [hassign]
  rw [countP_buildListFrom fresh
    (fun a => a.employee_id == E && a.period == P)
    (fun t => t.1 == E && t.2.2 == P) (fun _ _ _ _ => rfl)
    (solutionTriples (availableFilter teamEmployees available)
      teamWorkstations periods_per_day sol) 0]
  rw [countP_solutionTriples (availableFilter teamEmployees available)
    teamWorkstations periods_per_day sol (fun eid _ per => eid == E && per == P)]
  have hndF : ((availableFilter teamEmployees available).map Employee.id).Nodup :=
    nodup_ids_availableFilter teamEmployees available hndE
  apply sum_range_le_one
  · intro p hp
    apply sum_range_le_one
    · intro e he
      calc (∑ w ∈ Finset.range teamWorkstations.length,
            if sol e w p &&
              ((empAt (availableFilter teamEmployees available) e).id == E &&
                (p + 1 == P)) then 1 else 0)
          ≤ ∑ w ∈ Finset.range teamWorkstations.length,
              (if sol e w p then 1 else 0) := by
            refine Finset.sum_le_sum fun w _ => ?_
            by_cases hs : sol e w p
            · simp [hs]
              split <;> omega
            · simp [hs]
        _ ≤ 1 := hsat.1 e he p hp
    · intro e e' he he' hpos hpos'
      have hid : ∀ x, x < (availableFilter teamEmployees available).length →
          0 < (∑ w ∈ Finset.range teamWorkstations.length,
            if sol x w p &&
              ((empAt (availableFilter teamEmployees available) x).id == E &&
                (p + 1 == P)) then 1 else 0) →
          (empAt (availableFilter teamEmployees available) x).id = E := by
        intro x _ hxpos
        by_contra hne
        have hzero : (∑ w ∈ Finset.range teamWorkstations.length,
            if sol x w p &&
              ((empAt (availableFilter teamEmployees available) x).id == E &&
                (p + 1 == P)) then 1 else 0) = 0 := by
          refine Finset.sum_eq_zero fun w _ => ?_
          have hbeq : ((empAt (availableFilter teamEmployees available) x).id
              == E) = false := beq_eq_false_iff_ne.mpr hne
          simp [hbeq]
        omega
      exact index_eq_of_nodup_proj (availableFilter teamEmployees available)
        Employee.id dEmp hndF he he'
        ((hid e he hpos).trans (hid e' he' hpos').symm)
  · intro p p' hp hp' hpos hpos'
    have hper : ∀ x, x < periods_per_day →
        0 < (∑ e ∈ Finset.range
              (availableFilter teamEmployees available).length,
            ∑ w ∈ Finset.range teamWorkstations.length,
            if sol e w x &&
              ((empAt (availableFilter teamEmployees available) e).id == E &&
                (x + 1 == P)) then 1 else 0) →
        x + 1 = P := by
      intro x _ hxpos
      by_contra hne
      have hzero : (∑ e ∈ Finset.range
            (availableFilter teamEmployees available).length,
          ∑ w ∈ Finset.range teamWorkstations.length,
          if sol e w x &&
            ((empAt (availableFilter teamEmployees available) e).id == E &&
              (x + 1 == P)) then 1 else 0) = 0 := by
        refine Finset.sum_eq_zero fun e _ => Finset.sum_eq_zero fun w _ => ?_
        have hbeq : (x + 1 == P) = false := beq_eq_false_iff_ne.mpr hne
        simp [hbeq]
      omega
    have h1 := hper p hp hpos
    have h2 := hper p' hp' hpos'
    omega

/-- C3 witness: employee 10 is booked at most once in period 1 of the
concrete generated schedule. -/
theorem generated_schedule_no_double_booking_witness :
    (exSchedule.assignments.countP fun a =>
      a.employee_id == 10 && a.period == 1) ≤ 1 :=
  generated_schedule_no_double_booking [exEmployee] [exWorkstation]
    [exEmployee] 1 0 2 exSol none 5 exFresh 7 exSchedule rfl (by decide)
    (by decide) 10 1

/-- C2: every employee appearing in a successfully generated schedule is
assigned exactly one distinct workstation across all their assignments. -/
theorem generated_schedule_continuity (teamEmployees : List Employee)
    (teamWorkstations : List Workstation) (available : List Employee)
    (team_id schedule_date : Int) (periods_per_day : Nat)
    (sol : Nat → Nat → Nat → Bool) (saveExc : Option PyExc)
    (sched_id : Nat) (fresh : Nat → Nat) (now : Int) (s : Schedule)
    (hok : generate_schedule true teamEmployees teamWorkstations available
      team_id schedule_date periods_per_day (some sol) saveExc sched_id fresh
      now = .ok s)
    (hsat : SolSatisfies (availableFilter teamEmployees available)
      teamWorkstations periods_per_day sol)
    (hndE : (teamEmployees.map Employee.id).Nodup)
    (E : Nat) (hE : ∃ a ∈ s.assignments, a.employee_id = E) :
    (((s.assignments.filter fun a => a.employee_id == E).map
        fun a => a.workstation_id).toFinset).card = 1 := by
  obtain ⟨hassign, -⟩ := generate_schedule_ok_inv teamEmployees
    teamWorkstations available team_id schedule_date periods_per_day sol
    saveExc sched_id fresh now s hok
  have hndF : ((availableFilter teamEmployees available).map
      Employee.id).Nodup :=
    nodup_ids_availableFilter teamEmployees available hndE
  have hdec : ∀ a ∈ s.assignments, ∃ e w p,
      e < (availableFilter teamEmployees available).length ∧
      w < teamWorkstations.length ∧ p < periods_per_day ∧ sol e w p = true ∧
      a.employee_id = (empAt (availableFilter teamEmployees available) e).id ∧
      a.workstation_id = (wsAt teamWorkstations w).id := by
    intro a ha
    rw [hassign] at ha
    obtain ⟨t, ht, hemp, hws2, -, -⟩ := mem_buildListFrom fresh _ 0 a ha
    obtain ⟨e, w, p, he, hw, hp, hsol, rfl⟩ :=
      mem_solutionTriples _ _ _ _ t ht
    exact ⟨e, w, p, he, hw, hp, hsol, hemp, hws2⟩
  obtain ⟨a0, ha0, ha0E⟩ := hE
  obtain ⟨e0, w0, p0, he0, hw0, hp0, hsol0, ha0emp, ha0ws⟩ := hdec a0 ha0
  have hall : ∀ a ∈ s.assignments, a.employee_id = E →
      a.workstation_id = a0.workstation_id := by
    intro a ha haE
    obtain ⟨e, w, p, he, hw, hp, hsol, haemp, haws⟩ := hdec a ha
    have heq : e = e0 :=
      index_eq_of_nodup_proj (availableFilter teamEmployees available)
        Employee.id dEmp hndF he he0
        (by
          show (empAt (availableFilter teamEmployees available) e).id =
            (empAt (availableFilter teamEmployees available) e0).id
          rw [← haemp, ← ha0emp, haE, ha0E])
    have hsol0' : sol e w0 p0 = true := by rw [heq]; exact hsol0
    have hw_eq : w = w0 :=
      sol_unique_station hsat he hw hw0 hp hp0 hsol hsol0'
    rw [haws, ha0ws, hw_eq]
  apply Finset.card_eq_one.mpr
  refine ⟨a0.workstation_id, ?_⟩
  apply Finset.eq_singleton_iff_unique_mem.mpr
  constructor
  · rw [List.mem_toFinset]
    apply List.mem_map.mpr
    refine ⟨a0, ?_, rfl⟩
    exact List.mem_filter.mpr ⟨ha0, beq_iff_eq.mpr ha0E⟩
  · intro x hx
    rw [List.mem_toFinset] at hx
    obtain ⟨a, haf, rfl⟩ := List.mem_map.mp hx
    obtain ⟨ha, haE⟩ := List.mem_filter.mp haf
    exact hall a ha (beq_iff_eq.mp haE)

/-- C2 witness: employee 10's workstation set in the concrete schedule is a
singleton. -/
theorem generated_schedule_continuity_witness :
    (((exSchedule.assignments.filter fun a => a.employee_id == 10).map
        fun a => a.workstation_id).toFinset).card = 1 :=
  generated_schedule_continuity [exEmployee] [exWorkstation] [exEmployee]
    1 0 2 exSol none 5 exFresh 7 exSchedule rfl (by decide) (by decide)
    10 (by decide)

/-- C4: every assignment of a successfully generated schedule pairs an
available roster employee with a team workstation whose required
qualification names all occur among the employee's qualification names
(`can_be_operated_by` holds). -/
theorem generated_schedule_qualifications (teamEmployees : List Employee)
    (teamWorkstations : List Workstation) (available : List Employee)
    (team_id schedule_date : Int) (periods_per_day : Nat)
    (sol : Nat → Nat → Nat → Bool) (saveExc : Option PyExc)
    (sched_id : Nat) (fresh : Nat → Nat) (now : Int) (s : Schedule)
    (hok : generate_schedule true teamEmployees teamWorkstations available
      team_id schedule_date periods_per_day (some sol) saveExc sched_id fresh
      now = .ok s)
    (hsat : SolSatisfies (availableFilter teamEmployees available)
      teamWorkstations periods_per_day sol)
    (a : ShiftAssignment) (ha : a ∈ s.assignments) :
    ∃ emp ∈ availableFilter teamEmployees available,
      ∃ ws ∈ teamWorkstations,
        a.employee_id = emp.id ∧ a.workstation_id = ws.id ∧
        ws.can_be_operated_by (qualNames emp) = true ∧
        ∀ rq ∈ ws.required_qualifications, rq.name ∈ qualNames emp := by
  obtain ⟨hassign, -⟩ := generate_schedule_ok_inv teamEmployees
    teamWorkstations available team_id schedule_date periods_per_day sol
    saveExc sched_id fresh now s hok
  rw [hassign] at ha
  obtain ⟨t, ht, hemp, hws2, -, -⟩ := mem_buildListFrom fresh _ 0 a ha
  obtain ⟨e, w, p, he, hw, hp, hsol, rfl⟩ := mem_solutionTriples _ _ _ _ t ht
  have hcan : (wsAt teamWorkstations w).can_be_operated_by
      (qualNames (empAt (availableFilter teamEmployees available) e)) =
      true := by
    cases hb : (wsAt teamWorkstations w).can_be_operated_by
        (qualNames (empAt (availableFilter teamEmployees available) e)) with
    | true => rfl
    | false =>
      have h0 := hsat.2.2.1 e he w hw hb p hp
      rw [h0] at hsol
      exact Bool.noConfusion hsol
  have hmemE : empAt (availableFilter teamEmployees available) e ∈
      availableFilter teamEmployees available := by
    unfold empAt
    rw [List.getD_eq_getElem (availableFilter teamEmployees available) dEmp he]
    exact List.getElem_mem he
  have hmemW : wsAt teamWorkstations w ∈ teamWorkstations := by
    unfold wsAt
    rw [List.getD_eq_getElem teamWorkstations dWs hw]
    exact List.getElem_mem hw
  refine ⟨empAt (availableFilter teamEmployees available) e, hmemE,
    wsAt teamWorkstations w, hmemW, hemp, hws2, hcan, ?_⟩
  intro rq hrq
  have hcan' := hcan
  unfold Workstation.can_be_operated_by at hcan'
  have hany := List.all_eq_true.mp hcan' rq hrq
  obtain ⟨x, hx, hxeq⟩ := List.any_eq_true.mp hany
  rw [← beq_iff_eq.mp hxeq]
  exact hx

/-- C4 witness: the first concrete assignment pairs employee 10 with
station 20, whose "welding" requirement employee 10's names satisfy. -/
theorem generated_schedule_qualifications_witness :
    ∃ emp ∈ availableFilter [exEmployee] [exEmployee],
      ∃ ws ∈ [exWorkstation],
        ({ id := 100, employee_id := 10, workstation_id := 20,
           period := 1 } : ShiftAssignment).employee_id = emp.id ∧
        ({ id := 100, employee_id := 10, workstation_id := 20,
           period := 1 } : ShiftAssignment).workstation_id = ws.id ∧
        ws.can_be_operated_by (qualNames emp) = true ∧
        ∀ rq ∈ ws.required_qualifications, rq.name ∈ qualNames emp :=
  generated_schedule_qualifications [exEmployee] [exWorkstation] [exEmployee]
    1 0 2 exSol none 5 exFresh 7 exSchedule rfl (by decide)
    { id := 100, employee_id := 10, workstation_id := 20, period := 1 }
    (by decide)
